import Mathlib

/-!
Verification of the recomart batch pipeline against its specification.

The development shallowly embeds the pipeline stages that the properties
below concern:

* `scripts/5_data_preparation.py` — event weighting
  (`engineer_interaction_features`), product normalization
  (`engineer_product_features`), the left item-enrichment merge and the
  sparsity metrics printed by `calculate_global_sparsity`;
* `scripts/6_data_transformation.py` — the user / item / pair aggregations
  of `run_feature_transformation`;
* `scripts/9_model_training.py` — the `get_recommendations` closure of
  `run_content_based_recommender`;
* `scripts/7_feature_store.py` — `RecomartFeatureStore.register_feature_view`.

DataFrames are embedded as lists of records, pandas group-by aggregates as
filter/map/sum over those lists, machine floats as exact rationals, and
Python exceptions as an explicit `Except` channel.  Columns that no claim
touches and that no aggregation reads (`interaction_id`, `device`,
`session_id`) are omitted from the record types; the file notes every such
omission next to the definition it concerns.
-/

namespace Recomart

/-! Section: Data model (scripts 5 and 6)

A raw interaction row as read from the silver CSV.  The source also carries
`interaction_id`, `device` and `session_id`, which no aggregation or claim
reads; timestamps are embedded as naturals ordered like the parsed
datetimes. -/

structure RawInteraction where
  user_id : String
  product_id : String
  event_type : String
  timestamp : Nat
deriving DecidableEq

/-- A weighted interaction: the raw row plus the derived
`interaction_weight` column added by `engineer_interaction_features`. -/
structure WInteraction where
  user_id : String
  product_id : String
  event_type : String
  timestamp : Nat
  interaction_weight : Nat
deriving DecidableEq

/-- The event-type weight table of `engineer_interaction_features`
(script 5, lines 38-44): `df[...].map(event_weights).fillna(1)` on the event_type column.
`map` yields the dictionary value for known keys and NaN otherwise, and
`fillna(1)` turns the NaN of every unknown event type into 1. -/
def eventWeight (e : String) : Nat :=
  if e = "view" then 1
  else if e = "click" then 2
  else if e = "add_to_cart" then 5
  else if e = "purchase" then 10
  else 1

/-- The interaction half of `engineer_interaction_features` (script 5):
every row gets `interaction_weight := eventWeight event_type`; the
timestamp column is re-parsed in place (embedded as the identity on the
already-numeric timestamps). -/
def engineerInteractionFeatures (l : List RawInteraction) : List WInteraction :=
  l.map (fun r =>
    { user_id := r.user_id
      product_id := r.product_id
      event_type := r.event_type
      timestamp := r.timestamp
      interaction_weight := eventWeight r.event_type })

/-- A raw product row.  The stringified `rating` dictionary of the CSV is
embedded post-parse as `Option ℚ`: `some v` when `ast.literal_eval`
succeeds and yields a `rate` entry `v`, `none` when parsing fails or the
key is absent. -/
structure RawProduct where
  id : String
  category : String
  price : ℚ
  rating : Option ℚ
deriving DecidableEq

/-- The `parse_rate` helper of `engineer_product_features` (script 5,
lines 55-59): a failed parse or missing `rate` key falls back to 0. -/
def parseRate (r : Option ℚ) : ℚ :=
  r.getD 0

/-- Minimum of a column, as `DataFrame.min` computes it on a nonempty
column; the empty case is a dummy 0 (sklearn on an empty frame errors
before reaching the formula, and every claim quantifies over members). -/
def listMin : List ℚ → ℚ
  | [] => 0
  | x :: xs => xs.foldl min x

/-- Maximum of a column, mirroring `listMin`. -/
def listMax : List ℚ → ℚ
  | [] => 0
  | x :: xs => xs.foldl max x

/-- One cell of the sklearn `MinMaxScaler.fit_transform` with the default
`(0, 1)` feature range: `(x - min) / (max - min)`, where a zero range is
replaced by 1 (`sklearn.preprocessing._data._handle_zeros_in_scale`), so a
degenerate single-value column maps to 0 everywhere. -/
def minMaxValue (xs : List ℚ) (x : ℚ) : ℚ :=
  (x - listMin xs) / (if listMax xs = listMin xs then 1 else listMax xs - listMin xs)

/-- A product row after `engineer_product_features`: parsed rating and the
two min-max normalized columns (`norm_price`, `norm_rating`). -/
structure Product where
  id : String
  category : String
  price : ℚ
  rating_val : ℚ
  norm_price : ℚ
  norm_rating : ℚ
deriving DecidableEq

/-- The `engineer_product_features` function of script 5 (lines 50-68):
parse the nested rating, then min-max scale `price` and `rating_val`
column-wise over the full product set. -/
def engineerProductFeatures (ps : List RawProduct) : List Product :=
  let prices := ps.map (fun p => p.price)
  let rates := ps.map (fun p => parseRate p.rating)
  ps.map (fun p =>
    { id := p.id
      category := p.category
      price := p.price
      rating_val := parseRate p.rating
      norm_price := minMaxValue prices p.price
      norm_rating := minMaxValue rates (parseRate p.rating) })

/-! Section: The gold merge and the surfaced metrics (script 5, lines 121-158) -/

/-- A row of the gold prepared dataset: the weighted interaction columns
plus the item-side columns brought in by the left merge; `none` on the
item side is the NaN a left merge leaves on unmatched rows. -/
structure GoldRow where
  user_id : String
  product_id : String
  event_type : String
  timestamp : Nat
  interaction_weight : Nat
  category : Option String
  norm_price : Option ℚ
  norm_rating : Option ℚ
deriving DecidableEq

/-- The products whose `id` matches the `product_id` of an interaction — the
right-hand matches of the merge key. -/
def matchingProducts (ps : List Product) (pid : String) : List Product :=
  ps.filter (fun p => p.id = pid)

/-- The gold rows produced for one interaction by
`pd.merge(df_inter, df_prod[...], left_on=product_id, right_on=id,
how=left)` (script 5, lines 141-147): one row per right-hand match, and
a single row with missing item-side fields when there is no match. -/
def leftMergeRow (ps : List Product) (r : WInteraction) : List GoldRow :=
  match matchingProducts ps r.product_id with
  | [] => [{ user_id := r.user_id, product_id := r.product_id,
             event_type := r.event_type, timestamp := r.timestamp,
             interaction_weight := r.interaction_weight,
             category := none, norm_price := none, norm_rating := none }]
  | ms => ms.map (fun p =>
      { user_id := r.user_id, product_id := r.product_id,
        event_type := r.event_type, timestamp := r.timestamp,
        interaction_weight := r.interaction_weight,
        category := some p.category, norm_price := some p.norm_price,
        norm_rating := some p.norm_rating })

/-- The full gold merge of `run_data_preparation` step 4. -/
def goldMerge (ps : List Product) (rows : List WInteraction) : List GoldRow :=
  rows.flatMap (leftMergeRow ps)

/-- The gold row an unmatched interaction resolves to. -/
def unmatchedGoldRow (r : WInteraction) : GoldRow :=
  { user_id := r.user_id, product_id := r.product_id,
    event_type := r.event_type, timestamp := r.timestamp,
    interaction_weight := r.interaction_weight,
    category := none, norm_price := none, norm_rating := none }

/-- The number of interactions whose `product_id` has no match in the
product table. -/
def unmatchedCount (ps : List Product) (rows : List WInteraction) : Nat :=
  (rows.filter (fun r => matchingProducts ps r.product_id = ([] : List Product))).length

/-- The metrics `calculate_global_sparsity` (script 5, lines 101-117)
prints: unique user count, unique product count, and the sparsity
percentage.  These are the only data-dependent numbers `run_data_preparation`
reports to its caller (`run_eda` writes plots, the remaining prints are
fixed banners and paths), and they are computed from the interaction table
alone, before the merge. -/
structure SparsityMetrics where
  n_users : Nat
  n_items : Nat
  sparsity : ℚ
deriving DecidableEq

/-- The body of `calculate_global_sparsity` over the interaction table. -/
def calculateGlobalSparsity (rows : List WInteraction) : SparsityMetrics :=
  let nUsers := ((rows.map (fun r => r.user_id)).dedup).length
  let nItems := ((rows.map (fun r => r.product_id)).dedup).length
  let actual := ((rows.map (fun r => (r.user_id, r.product_id))).dedup).length
  { n_users := nUsers
    n_items := nItems
    sparsity := (1 - (actual : ℚ) / ((nUsers : ℚ) * (nItems : ℚ))) * 100 }

/-! Section: Aggregations (script 6, `run_feature_transformation`) -/

/-- The group-by key of the affinity matrix. -/
def pairKey (r : GoldRow) : String × String :=
  (r.user_id, r.product_id)

/-- The rows of one user group. -/
def userRows (df : List GoldRow) (u : String) : List GoldRow :=
  df.filter (fun r => r.user_id = u)

/-- The rows of one product group. -/
def itemRows (df : List GoldRow) (p : String) : List GoldRow :=
  df.filter (fun r => r.product_id = p)

/-- One row of the user feature table (script 6, lines 31-36). -/
structure UserAgg where
  user_activity_count : Nat
  user_avg_affinity : ℚ
  user_total_score : Nat
  last_active_ts : Nat
deriving DecidableEq

/-- The aggregates `df.groupby(user_id).agg(...)` computes for one user:
count, mean and sum of `interaction_weight`, and the maximum timestamp. -/
def userAgg (df : List GoldRow) (u : String) : UserAgg :=
  let rows := userRows df u
  { user_activity_count := rows.length
    user_avg_affinity :=
      ((rows.map (fun r => r.interaction_weight)).sum : ℚ) / (rows.length : ℚ)
    user_total_score := (rows.map (fun r => r.interaction_weight)).sum
    last_active_ts := (rows.map (fun r => r.timestamp)).foldr max 0 }

/-- One row of the item feature table (script 6, lines 40-46).  The
`global_popularity_score` column (`np.log1p` of the count, line 49) is a
real-log transform of `item_interaction_count` and is omitted here: no
claim mentions it and it would force a noncomputable field. -/
structure ItemAgg where
  item_interaction_count : Nat
  item_avg_affinity : ℚ
  norm_price : Option ℚ
  norm_rating : Option ℚ
  category : Option String
deriving DecidableEq

/-- The aggregates `df.groupby(product_id).agg(...)` computes for one
product: count and mean of `interaction_weight`, and the pandas `first`
aggregator (first non-null value of the group) for the carried item
columns. -/
def itemAgg (df : List GoldRow) (p : String) : ItemAgg :=
  let rows := itemRows df p
  { item_interaction_count := rows.length
    item_avg_affinity :=
      ((rows.map (fun r => r.interaction_weight)).sum : ℚ) / (rows.length : ℚ)
    norm_price := (rows.filterMap (fun r => r.norm_price)).head?
    norm_rating := (rows.filterMap (fun r => r.norm_rating)).head?
    category := (rows.filterMap (fun r => r.category)).head? }

/-- The affinity score of one (user, product) pair:
the two-key group-by sum of `interaction_weight` over user_id and product_id
(script 6, lines 53-55). -/
def affinityScore (df : List GoldRow) (k : String × String) : Nat :=
  ((df.filter (fun r => pairKey r = k)).map (fun r => r.interaction_weight)).sum

/-- The affinity matrix: one row per distinct observed (user, product)
pair, carrying the summed weight.  Row order abstracts the sorted key
order pandas emits; no claim depends on the order of the matrix rows. -/
def affinityMatrix (df : List GoldRow) : List ((String × String) × Nat) :=
  ((df.map pairKey).dedup).map (fun k => (k, affinityScore df k))

/-! Section: Similarity engine (script 9, `get_recommendations`) -/

/-- A row of the item feature store as `get_recommendations` reads it
(only the columns it touches: lookup key and the two returned metadata
columns besides the key). -/
structure ItemRow where
  product_id : String
  category : String
  norm_rating : ℚ
deriving DecidableEq

/-- Python exceptions that can escape the embedded functions.
`indexError` is `list[0]` on an empty list — the typed not-found
condition the spec calls `NotFoundError`. -/
inductive PyError where
  | indexError
deriving DecidableEq

/-- The index lookup
`df_items.index[df_items[...] == product_id].tolist()[0]`
(script 9, line 39): the first positional index whose row matches, or the
`IndexError` of `[0]` on an empty match list, signalled here as `none`. -/
def lookupIdx (items : List ItemRow) (pid : String) : Option Nat :=
  items.findIdx? (fun it => it.product_id = pid)

/-- The enumerated similarity row `list(enumerate(cosine_sim[idx]))`
(script 9, line 42): pairs of positional index and similarity score.
The score matrix is a parameter, exactly as `cosine_sim` is a closure
variable of `get_recommendations` computed once per run. -/
def simScores (n : Nat) (sim : Nat → Nat → ℚ) (idx : Nat) : List (Nat × ℚ) :=
  (List.range n).map (fun j => (j, sim idx j))

/-- The sort `sorted(sim_scores, key=lambda x: x[1], reverse=True)`
(script 9, line 45).  the Python `sorted` function is a stable sort, so the result is
ordered by descending score with ties kept in original (index) order; a
stable insertion sort that inserts each element before the first one whose
score it weakly beats realizes exactly that order. -/
def sortScoresDesc (l : List (Nat × ℚ)) : List (Nat × ℚ) :=
  l.insertionSort (fun a b => b.2 ≤ a.2)

/-- The sorted enumerated similarity row for a looked-up index. -/
def sortedSimScores (items : List ItemRow) (sim : Nat → Nat → ℚ) (idx : Nat) :
    List (Nat × ℚ) :=
  sortScoresDesc (simScores items.length sim idx)

/-- The `get_recommendations` closure (script 9, lines 37-51): look the
product up, sort the enumerated similarity scores descending, take the
slice `[1:top_n+1]`, and return the rows of the surviving indices
(`df_items.iloc[item_indices]`, embedded via the always-successful bounds
lookup `items[i]?`). -/
def getRecommendations (items : List ItemRow) (sim : Nat → Nat → ℚ)
    (pid : String) (topN : Nat) : Except PyError (List ItemRow) :=
  match lookupIdx items pid with
  | none => .error .indexError
  | some idx =>
      let picked := ((sortedSimScores items sim idx).drop 1).take topN
      .ok (picked.filterMap (fun e => items[e.1]?))

/-- Sorted-descending-with-stable-ties: the second component never
increases, and equal scores keep ascending original indices. -/
def ScoreDescStable (a b : Nat × ℚ) : Prop :=
  b.2 < a.2 ∨ (a.2 = b.2 ∧ a.1 < b.1)

/-! Section: Feature store (script 7, `register_feature_view`) -/

/-- The metadata recorded for one feature view (script 7, lines 37-43). -/
structure FeatureView where
  source : String
  entity_key : String
  feature_list : List String
  version : String
  created_at : String
deriving DecidableEq

/-- The registry document: the `feature_views` dictionary (embedded as an
association list with unique keys) and the `last_updated` stamp. -/
structure Registry where
  feature_views : List (String × FeatureView)
  last_updated : String
deriving DecidableEq

/-- The dictionary read `registry["feature_views"].get(name)`: first
binding of the name. -/
def lookupView : List (String × FeatureView) → String → Option FeatureView
  | [], _ => none
  | (n, v) :: rest, name => if n = name then some v else lookupView rest name

/-- The dictionary write `registry["feature_views"][name] = view`:
overwrite the existing binding in place, or append a new one. -/
def setView : List (String × FeatureView) → String → FeatureView →
    List (String × FeatureView)
  | [], name, v => [(name, v)]
  | (n, w) :: rest, name, v =>
      if n = name then (name, v) :: rest else (n, w) :: setView rest name v

/-- The feature-store state `register_feature_view` touches: the set of
existing storage artifacts (file paths), the in-memory registry
dictionary, and the contents of `metadata_registry.json` (`none` while the
file does not exist). -/
structure FSState where
  files : List String
  registry : Registry
  disk : Option Registry
deriving DecidableEq

/-- The base directory of the store, `./recomart-data-lake/feature_store`;
paths are embedded as the joined strings themselves. -/
def featureStoreBase : String :=
  "recomart-data-lake/feature_store"

/-- The resolved `full_source_path` of `register_feature_view`. -/
def fullSourcePath (srcFile : String) : String :=
  featureStoreBase ++ "/" ++ srcFile

/-- The console message `register_feature_view` prints. -/
inductive RegisterMsg where
  | fileNotFound
  | registered
deriving DecidableEq

/-- The `register_feature_view` method (script 7, lines 27-48).  When the
source artifact is missing it prints the file-not-found message and
returns — note the plain `return`, not a `raise` — leaving both the
in-memory dictionary and the on-disk JSON untouched; otherwise it
overwrites the metadata of the named view, stamps `last_updated`, and rewrites
the JSON document.  The `Except` channel carries any Python exception the
call would raise; this method raises none. -/
def registerFeatureView (st : FSState) (now name srcFile entityKey : String)
    (features : List String) (version : String) :
    Except PyError (FSState × RegisterMsg) :=
  let full := fullSourcePath srcFile
  if full ∈ st.files then
    let view : FeatureView :=
      { source := full, entity_key := entityKey, feature_list := features,
        version := version, created_at := now }
    let reg : Registry :=
      { feature_views := setView st.registry.feature_views name view,
        last_updated := now }
    .ok ({ st with registry := reg, disk := some reg }, .registered)
  else
    .ok (st, .fileNotFound)

/-! Section: Concrete inputs used by the end-to-end scenario and witnesses -/

/-- The five interactions of the end-to-end scenario of the spec: U1 views P1
twice, U1 purchases P2 once, U2 clicks P1 once, U3 adds P2 to cart once. -/
def scenarioRaw : List RawInteraction :=
  [ { user_id := "U1", product_id := "P1", event_type := "view", timestamp := 0 },
    { user_id := "U1", product_id := "P1", event_type := "view", timestamp := 1 },
    { user_id := "U1", product_id := "P2", event_type := "purchase", timestamp := 2 },
    { user_id := "U2", product_id := "P1", event_type := "click", timestamp := 3 },
    { user_id := "U3", product_id := "P2", event_type := "add_to_cart", timestamp := 4 } ]

/-- The two products of the scenario, post feature engineering. -/
def scenarioProducts : List Product :=
  [ { id := "P1", category := "electronics", price := 10, rating_val := 4,
      norm_price := 0, norm_rating := 0 },
    { id := "P2", category := "books", price := 20, rating_val := 5,
      norm_price := 1, norm_rating := 1 } ]

/-- The gold table of the scenario. -/
def scenarioGold : List GoldRow :=
  goldMerge scenarioProducts (engineerInteractionFeatures scenarioRaw)

/-- A two-item catalog whose items share one category. -/
def itemsTwoSame : List ItemRow :=
  [ { product_id := "P1", category := "electronics", norm_rating := 0 },
    { product_id := "P2", category := "electronics", norm_rating := 1 } ]

/-- The cosine-similarity matrix the training run computes for
`itemsTwoSame`: both documents are the single term "electronics", so their
TF-IDF rows are the same L2-normalized one-hot vector and
`linear_kernel(tfidf_matrix, tfidf_matrix)` is 1 in every entry. -/
def simTwoSame : Nat → Nat → ℚ :=
  fun _ _ => 1

/-- The raw product rows behind `scenarioProducts`. -/
def scenarioRawProducts : List RawProduct :=
  [ { id := "P1", category := "electronics", price := 10, rating := some 4 },
    { id := "P2", category := "books", price := 20, rating := some 5 } ]

/-- The engineered row of P1: both columns sit at the column minimum, so
both normalized values are `(10 - 10) / (20 - 10) = 0` and
`(4 - 4) / (5 - 4) = 0` respectively. -/
def featP1 : Product :=
  { id := "P1", category := "electronics", price := 10, rating_val := 4,
    norm_price := minMaxValue (scenarioRawProducts.map (fun p => p.price)) 10,
    norm_rating := minMaxValue (scenarioRawProducts.map (fun p => parseRate p.rating)) 4 }

/-- A weighted interaction matching product P1. -/
def wRowU1P1 : WInteraction :=
  { user_id := "U1", product_id := "P1", event_type := "view",
    timestamp := 0, interaction_weight := 1 }

/-- A weighted interaction referencing a product absent from every
catalog used below. -/
def wRowU1P9 : WInteraction :=
  { user_id := "U1", product_id := "P9", event_type := "view",
    timestamp := 1, interaction_weight := 1 }

/-- A concrete gold row (U1 views P1). -/
def goldRowA : GoldRow :=
  { user_id := "U1", product_id := "P1", event_type := "view",
    timestamp := 0, interaction_weight := 1,
    category := some "electronics", norm_price := some 0, norm_rating := some 0 }

/-- A concrete gold row (U1 purchases P2). -/
def goldRowB : GoldRow :=
  { user_id := "U1", product_id := "P2", event_type := "purchase",
    timestamp := 2, interaction_weight := 10,
    category := some "books", norm_price := some 1, norm_rating := some 1 }

/-- A feature-store state with no artifacts and an empty registry. -/
def stEmpty : FSState :=
  { files := [], registry := { feature_views := [], last_updated := "" },
    disk := none }

/-- A feature-store state in which the user feature table exists. -/
def stWithFile : FSState :=
  { files := [fullSourcePath "user_feature_store.csv"],
    registry := { feature_views := [], last_updated := "" },
    disk := none }

/-- The view metadata a successful `user_signals` registration records. -/
def viewUserSignals : FeatureView :=
  { source := fullSourcePath "user_feature_store.csv", entity_key := "user_id",
    feature_list := ["user_activity_count"], version := "v1.1",
    created_at := "t1" }

/-- The registry after registering `user_signals` into `stWithFile`. -/
def regAfterRegister : Registry :=
  { feature_views := [("user_signals", viewUserSignals)], last_updated := "t1" }

/-- The store state after registering `user_signals` into `stWithFile`. -/
def stAfterRegister : FSState :=
  { files := stWithFile.files, registry := regAfterRegister,
    disk := some regAfterRegister }

/-- A previously registered item view. -/
def viewItemSignals : FeatureView :=
  { source := fullSourcePath "item_feature_store.csv", entity_key := "product_id",
    feature_list := ["item_interaction_count", "norm_rating"], version := "v1.1",
    created_at := "t" }

/-- A store state that already holds one registered view but no artifact
files. -/
def stPre : FSState :=
  { files := [],
    registry := { feature_views := [("item_signals", viewItemSignals)],
                  last_updated := "t" },
    disk := some { feature_views := [("item_signals", viewItemSignals)],
                   last_updated := "t" } }

/-! Section: List algebra helpers -/

theorem sum_map_one {α : Type} (l : List α) : (l.map (fun _ => 1)).sum = l.length := by
  induction l with
  | nil => rfl
  | cons x xs ih => simp [ih]; omega

theorem sum_map_add {K : Type} (f g : K → Nat) (l : List K) :
    (l.map (fun k => f k + g k)).sum = (l.map f).sum + (l.map g).sum := by
  induction l with
  | nil => rfl
  | cons x xs ih =>
    simp only [List.map_cons, List.sum_cons, ih]
    omega

theorem sum_ite_of_not_mem {K : Type} [DecidableEq K] {keys : List K} {a : K} {v : Nat}
    (h : a ∉ keys) : (keys.map (fun k => if a = k then v else 0)).sum = 0 := by
  induction keys with
  | nil => rfl
  | cons x xs ih =>
    simp only [List.mem_cons, not_or] at h
    simp [if_neg h.1, ih h.2]

theorem sum_ite_of_nodup_mem {K : Type} [DecidableEq K] {keys : List K} {a : K} {v : Nat}
    (hn : keys.Nodup) (ha : a ∈ keys) :
    (keys.map (fun k => if a = k then v else 0)).sum = v := by
  induction keys with
  | nil => cases ha
  | cons x xs ih =>
    rw [List.nodup_cons] at hn
    rcases List.mem_cons.mp ha with h | h
    · subst h
      simp [sum_ite_of_not_mem hn.1]
    · have hne : a ≠ x := by
        rintro rfl
        exact hn.1 h
      simp [if_neg hne, ih hn.2 h]

theorem dedup_filter {K : Type} [DecidableEq K] (p : K → Bool) :
    ∀ l : List K, l.dedup.filter p = (l.filter p).dedup := by
  intro l
  induction l with
  | nil => rfl
  | cons a l ih =>
    by_cases hmem : a ∈ l
    · rw [List.dedup_cons_of_mem hmem, List.filter_cons]
      by_cases hp : p a = true
      · rw [if_pos hp, List.dedup_cons_of_mem (List.mem_filter.mpr ⟨hmem, hp⟩), ih]
      · rw [if_neg hp, ih]
    · rw [List.dedup_cons_of_not_mem hmem, List.filter_cons, List.filter_cons]
      by_cases hp : p a = true
      · have hnot : a ∉ l.filter p := fun hc => hmem (List.mem_filter.mp hc).1
        rw [if_pos hp, if_pos hp, List.dedup_cons_of_not_mem hnot, ih]
      · rw [if_neg hp, if_neg hp, ih]

/-- Partitioning a list by its distinct keys and summing the groups gives
back the total: the group-by invariant behind the affinity matrix. -/
theorem sum_dedup_groups {α K : Type} [DecidableEq K] (key : α → K) (w : α → Nat) :
    ∀ l : List α,
      ((l.map key).dedup.map
          (fun k => ((l.filter (fun r => key r = k)).map w).sum)).sum
        = (l.map w).sum := by
  intro l
  induction l with
  | nil => rfl
  | cons x xs ih =>
    have hterm : ∀ k : K, (((x :: xs).filter (fun r => key r = k)).map w).sum
        = (if key x = k then w x else 0)
            + ((xs.filter (fun r => key r = k)).map w).sum := by
      intro k
      by_cases h : key x = k
      · simp [List.filter_cons, h]
      · simp [List.filter_cons, h]
    by_cases hmem : key x ∈ xs.map key
    · rw [List.map_cons, List.dedup_cons_of_mem hmem]
      have hrw : ((xs.map key).dedup.map
            (fun k => (((x :: xs).filter (fun r => key r = k)).map w).sum)).sum
          = ((xs.map key).dedup.map
              (fun k => (if key x = k then w x else 0)
                + ((xs.filter (fun r => key r = k)).map w).sum)).sum := by
        rw [List.map_congr_left (fun k _ => hterm k)]
      rw [hrw, sum_map_add,
        sum_ite_of_nodup_mem (List.nodup_dedup _) (List.mem_dedup.mpr hmem), ih]
      simp
    · rw [List.map_cons, List.dedup_cons_of_not_mem hmem, List.map_cons, List.sum_cons,
        hterm (key x), if_pos rfl]
      have hnil : xs.filter (fun r => key r = key x) = [] := by
        rw [List.filter_eq_nil_iff]
        intro r hr hkr
        exact hmem (List.mem_map.mpr ⟨r, hr, of_decide_eq_true hkr⟩)
      have htail : ((xs.map key).dedup.map
            (fun k => (((x :: xs).filter (fun r => key r = k)).map w).sum)).sum
          = ((xs.map key).dedup.map
              (fun k => ((xs.filter (fun r => key r = k)).map w).sum)).sum := by
        refine congrArg List.sum (List.map_congr_left ?_)
        intro k hk
        have hne : key x ≠ k := by
          rintro rfl
          exact hmem (List.mem_dedup.mp hk)
        rw [hterm k, if_neg hne, Nat.zero_add]
      rw [htail, hnil, ih]
      simp

theorem foldr_max_perm {l₁ l₂ : List Nat} (h : l₁.Perm l₂) (b : Nat) :
    l₁.foldr max b = l₂.foldr max b := by
  induction h generalizing b with
  | nil => rfl
  | cons x _ ih => simp [ih]
  | swap x y l => simp [max_left_comm]
  | trans _ _ ih₁ ih₂ => exact (ih₁ b).trans (ih₂ b)

/-! Section: Min and max of a column -/

theorem foldl_min_le_init : ∀ (xs : List ℚ) (a : ℚ), xs.foldl min a ≤ a := by
  intro xs
  induction xs with
  | nil => intro a; exact le_refl a
  | cons c cs ih =>
    intro a
    exact le_trans (ih (min a c)) (min_le_left a c)

theorem foldl_min_le_mem : ∀ (xs : List ℚ) (a x : ℚ), x ∈ xs → xs.foldl min a ≤ x := by
  intro xs
  induction xs with
  | nil => intro a x hx; cases hx
  | cons c cs ih =>
    intro a x hx
    rcases List.mem_cons.mp hx with h | h
    · subst h
      exact le_trans (foldl_min_le_init cs (min a x)) (min_le_right a x)
    · exact ih (min a c) x h

theorem listMin_le_of_mem {xs : List ℚ} {x : ℚ} (hx : x ∈ xs) : listMin xs ≤ x := by
  cases xs with
  | nil => cases hx
  | cons b bs =>
    rcases List.mem_cons.mp hx with h | h
    · subst h
      exact foldl_min_le_init bs x
    · exact foldl_min_le_mem bs b x h

theorem init_le_foldl_max : ∀ (xs : List ℚ) (a : ℚ), a ≤ xs.foldl max a := by
  intro xs
  induction xs with
  | nil => intro a; exact le_refl a
  | cons c cs ih =>
    intro a
    exact le_trans (le_max_left a c) (ih (max a c))

theorem mem_le_foldl_max : ∀ (xs : List ℚ) (a x : ℚ), x ∈ xs → x ≤ xs.foldl max a := by
  intro xs
  induction xs with
  | nil => intro a x hx; cases hx
  | cons c cs ih =>
    intro a x hx
    rcases List.mem_cons.mp hx with h | h
    · subst h
      exact le_trans (le_max_right a x) (init_le_foldl_max cs (max a x))
    · exact ih (max a c) x h

theorem le_listMax_of_mem {xs : List ℚ} {x : ℚ} (hx : x ∈ xs) : x ≤ listMax xs := by
  cases xs with
  | nil => cases hx
  | cons b bs =>
    rcases List.mem_cons.mp hx with h | h
    · subst h
      exact init_le_foldl_max bs x
    · exact mem_le_foldl_max bs b x h

/-- Every scaled member of a column lies in the unit interval, and a
degenerate column scales to 0 everywhere. -/
theorem minMaxValue_bounds {xs : List ℚ} {x : ℚ} (hx : x ∈ xs) :
    (0 ≤ minMaxValue xs x ∧ minMaxValue xs x ≤ 1)
      ∧ (listMin xs = listMax xs → minMaxValue xs x = 0) := by
  have hmin := listMin_le_of_mem hx
  have hmax := le_listMax_of_mem hx
  by_cases hd : listMax xs = listMin xs
  · have hxeq : x = listMin xs := le_antisymm (hd ▸ hmax) hmin
    have hval : minMaxValue xs x = 0 := by
      rw [minMaxValue, if_pos hd, hxeq, sub_self, zero_div]
    exact ⟨⟨le_of_eq hval.symm, by rw [hval]; norm_num⟩, fun _ => hval⟩
  · have hlt : listMin xs < listMax xs :=
      lt_of_le_of_ne (le_trans hmin hmax) (fun h => hd h.symm)
    have hpos : 0 < listMax xs - listMin xs := sub_pos.mpr hlt
    have hval : minMaxValue xs x = (x - listMin xs) / (listMax xs - listMin xs) := by
      rw [minMaxValue, if_neg hd]
    constructor
    · constructor
      · rw [hval]
        exact div_nonneg (sub_nonneg.mpr hmin) (le_of_lt hpos)
      · rw [hval, div_le_one hpos]
        exact sub_le_sub_right hmax _
    · intro h
      exact absurd h.symm hd

/-! Section: Left-merge helpers -/

theorem matching_length_le_one {ps : List Product}
    (hnd : (ps.map (fun p => p.id)).Nodup) (pid : String) :
    (matchingProducts ps pid).length ≤ 1 := by
  induction ps with
  | nil => simp [matchingProducts]
  | cons p ps ih =>
    rw [List.map_cons, List.nodup_cons] at hnd
    rw [matchingProducts, List.filter_cons]
    by_cases hp : p.id = pid
    · rw [if_pos (by simpa using hp)]
      have hnil : ps.filter (fun q => q.id = pid) = [] := by
        rw [List.filter_eq_nil_iff]
        intro q hq hqid
        exact hnd.1 (List.mem_map.mpr ⟨q, hq, by rw [of_decide_eq_true hqid, hp]⟩)
      rw [show List.filter (fun q => decide (q.id = pid)) ps
            = matchingProducts ps pid from rfl] at hnil ⊢
      rw [hnil]
      simp
    · rw [if_neg (by simpa using hp)]
      exact ih hnd.2

theorem leftMergeRow_length {ps : List Product}
    (hnd : (ps.map (fun p => p.id)).Nodup) (r : WInteraction) :
    (leftMergeRow ps r).length = 1 := by
  rcases h : matchingProducts ps r.product_id with _ | ⟨m, ms⟩
  · simp [leftMergeRow, h]
  · have hle := matching_length_le_one hnd r.product_id
    rw [h] at hle
    simp only [List.length_cons] at hle
    have hms : ms.length = 0 := by omega
    simp [leftMergeRow, h, hms]

theorem goldMerge_length {ps : List Product}
    (hnd : (ps.map (fun p => p.id)).Nodup) (rows : List WInteraction) :
    (goldMerge ps rows).length = rows.length := by
  rw [goldMerge, List.length_flatMap]
  rw [List.map_congr_left
    (fun r _ => show (List.length ∘ leftMergeRow ps) r = (fun _ => 1) r from
      leftMergeRow_length hnd r)]
  exact sum_map_one rows

theorem unmatched_mem_goldMerge {ps : List Product} {rows : List WInteraction}
    {r : WInteraction} (hr : r ∈ rows)
    (hm : matchingProducts ps r.product_id = []) :
    unmatchedGoldRow r ∈ goldMerge ps rows := by
  refine List.mem_flatMap.mpr ⟨r, hr, ?_⟩
  simp [leftMergeRow, hm, unmatchedGoldRow]

/-! Section: Stable descending sort of the similarity scores -/

theorem stable_orderedInsert (x : Nat × ℚ) :
    ∀ l : List (Nat × ℚ), (∀ y ∈ l, x.1 < y.1) → l.Pairwise ScoreDescStable →
      (List.orderedInsert (fun a b => b.2 ≤ a.2) x l).Pairwise ScoreDescStable := by
  intro l
  induction l with
  | nil =>
    intro _ _
    simp [List.orderedInsert]
  | cons y ys ih =>
    intro hlt hpw
    rw [List.orderedInsert]
    by_cases h : y.2 ≤ x.2
    · rw [if_pos h]
      refine List.Pairwise.cons ?_ hpw
      intro z hz
      rcases List.mem_cons.mp hz with hzy | hzys
      · subst hzy
        rcases lt_or_eq_of_le h with hlt2 | heq
        · exact Or.inl hlt2
        · exact Or.inr ⟨heq.symm, hlt z (List.mem_cons_self z ys)⟩
      · have hyz := List.rel_of_pairwise_cons hpw hzys
        have hz2 : z.2 ≤ x.2 := by
          rcases hyz with h1 | h1
          · exact le_trans (le_of_lt h1) h
          · exact le_trans (le_of_eq h1.1.symm) h
        rcases lt_or_eq_of_le hz2 with hlt2 | heq
        · exact Or.inl hlt2
        · exact Or.inr ⟨heq.symm, hlt z (List.mem_cons_of_mem y hzys)⟩
    · rw [if_neg h]
      have hxy : x.2 < y.2 := lt_of_not_le h
      refine List.Pairwise.cons ?_ (ih (fun z hz => hlt z (List.mem_cons_of_mem y hz))
        (List.Pairwise.of_cons hpw))
      intro z hz
      rcases (List.mem_orderedInsert _).mp hz with hzx | hzys
      · subst hzx
        exact Or.inl hxy
      · exact List.rel_of_pairwise_cons hpw hzys

theorem stable_sortScoresDesc :
    ∀ l : List (Nat × ℚ), l.Pairwise (fun a b => a.1 < b.1) →
      (sortScoresDesc l).Pairwise ScoreDescStable := by
  intro l
  induction l with
  | nil =>
    intro _
    simp [sortScoresDesc, List.insertionSort]
  | cons x xs ih =>
    intro hpw
    rw [sortScoresDesc, List.insertionSort]
    have hlt : ∀ y ∈ List.insertionSort (fun a b => b.2 ≤ a.2) xs, x.1 < y.1 := by
      intro y hy
      exact List.rel_of_pairwise_cons hpw ((List.mem_insertionSort _).mp hy)
    exact stable_orderedInsert x _ hlt (ih (List.Pairwise.of_cons hpw))

theorem simScores_indices (n : Nat) (sim : Nat → Nat → ℚ) (idx : Nat) :
    (simScores n sim idx).Pairwise (fun a b => a.1 < b.1) := by
  rw [simScores]
  exact (List.pairwise_lt_range n).map _ (fun a b h => h)

/-! Section: Affinity-matrix structure -/

theorem affinityMatrix_keys (df : List GoldRow) :
    (affinityMatrix df).map Prod.fst = (df.map pairKey).dedup := by
  rw [affinityMatrix, List.map_map]
  exact List.map_id ((df.map pairKey).dedup)

/-- Summing `affinity_score` over the matrix rows of one user recovers the
sum of the interaction weights of that user. -/
theorem affinity_user_sum (df : List GoldRow) (u : String) :
    (((affinityMatrix df).filter (fun e => e.1.1 = u)).map Prod.snd).sum
      = ((df.filter (fun r => r.user_id = u)).map (fun r => r.interaction_weight)).sum := by
  rw [affinityMatrix, List.filter_map, List.map_map]
  show ((((df.map pairKey).dedup).filter (fun k => decide (k.1 = u))).map
      (fun k => affinityScore df k)).sum = _
  rw [dedup_filter, List.filter_map]
  show ((((df.filter (fun r => decide (r.user_id = u))).map pairKey).dedup).map
      (fun k => affinityScore df k)).sum = _
  set df' := df.filter (fun r => decide (r.user_id = u)) with hdf
  have hscore : ∀ k ∈ (df'.map pairKey).dedup, affinityScore df k
      = ((df'.filter (fun r => pairKey r = k)).map (fun r => r.interaction_weight)).sum := by
    intro k hk
    obtain ⟨r0, hr0, hpk⟩ := List.mem_map.mp (List.mem_dedup.mp hk)
    have hu : r0.user_id = u := of_decide_eq_true (List.mem_filter.mp hr0).2
    have hk1 : k.1 = u := by
      rw [← hpk]
      exact hu
    have hsame : df'.filter (fun r => pairKey r = k)
        = df.filter (fun r => pairKey r = k) := by
      rw [hdf, List.filter_filter]
      refine List.filter_congr ?_
      intro r _
      by_cases hp : pairKey r = k
      · have hru : r.user_id = u := by
          rw [← hk1]
          exact congrArg Prod.fst hp
        simp [hp, hru]
      · simp [hp]
    rw [affinityScore, ← hsame]
  rw [List.map_congr_left hscore]
  exact sum_dedup_groups pairKey (fun r => r.interaction_weight) df'

/-! Section: Feature-store helpers -/

theorem lookupView_setView_self (vs : List (String × FeatureView)) (name : String)
    (v : FeatureView) : lookupView (setView vs name v) name = some v := by
  induction vs with
  | nil => simp [setView, lookupView]
  | cons hd rest ih =>
    obtain ⟨n, w⟩ := hd
    rw [setView]
    by_cases hn : n = name
    · rw [if_pos hn, lookupView, if_pos rfl]
    · rw [if_neg hn, lookupView, if_neg hn]
      exact ih

/-! Section: Claim theorems -/

/-- C1: the affinity-matrix construction groups weighted interactions by
(user_id, product_id) and sums `interaction_weight`: (i) exactly one row
per distinct observed pair (the key column is duplicate-free and its
members are exactly the observed pair keys), (ii) for every user, summing
`affinity_score` over the matrix rows of that user equals the sum of
`interaction_weight` over the interactions of that user, and (iii) on the
3-user / 2-product / 5-interaction scenario the matrix is exactly the four
rows U1-P1:2, U1-P2:10, U2-P1:2, U3-P2:5. -/
theorem c1_affinity_matrix_construction :
    (∀ df : List GoldRow, ((affinityMatrix df).map Prod.fst).Nodup)
    ∧ (∀ (df : List GoldRow) (k : String × String),
        k ∈ (affinityMatrix df).map Prod.fst ↔ ∃ r ∈ df, pairKey r = k)
    ∧ (∀ (df : List GoldRow) (u : String),
        (((affinityMatrix df).filter (fun e => e.1.1 = u)).map Prod.snd).sum
          = ((df.filter (fun r => r.user_id = u)).map (fun r => r.interaction_weight)).sum)
    ∧ affinityMatrix scenarioGold
        = [(("U1", "P1"), 2), (("U1", "P2"), 10), (("U2", "P1"), 2), (("U3", "P2"), 5)] := by
  refine ⟨?_, ?_, affinity_user_sum, ?_⟩
  · intro df
    rw [affinityMatrix_keys]
    exact List.nodup_dedup _
  · intro df k
    rw [affinityMatrix_keys, List.mem_dedup, List.mem_map]
  · decide

/-- C2: the user aggregation (count, mean, sum, max timestamp), the item
aggregation (count, mean) and the affinity pair sums are invariant under
any permutation of the input rows — the aggregates are functions of the
input multiset only. -/
theorem c2_aggregation_order_independent :
    ∀ df₁ df₂ : List GoldRow, df₁.Perm df₂ →
      (∀ u, userAgg df₁ u = userAgg df₂ u)
      ∧ (∀ p, (itemAgg df₁ p).item_interaction_count
            = (itemAgg df₂ p).item_interaction_count
          ∧ (itemAgg df₁ p).item_avg_affinity = (itemAgg df₂ p).item_avg_affinity)
      ∧ (∀ k, affinityScore df₁ k = affinityScore df₂ k) := by
  intro df₁ df₂ h
  refine ⟨?_, ?_, ?_⟩
  · intro u
    have hp : (userRows df₁ u).Perm (userRows df₂ u) := h.filter _
    have hlen := hp.length_eq
    have hsum := (hp.map (fun r => r.interaction_weight)).sum_eq
    have hsumq := (hp.map (fun r => (r.interaction_weight : ℚ))).sum_eq
    have hmax := foldr_max_perm (hp.map (fun r => r.timestamp)) 0
    simp only [userAgg, UserAgg.mk.injEq]
    exact ⟨hlen, by rw [hsumq, hlen], hsum, hmax⟩
  · intro p
    have hp : (itemRows df₁ p).Perm (itemRows df₂ p) := h.filter _
    have hlen := hp.length_eq
    have hsumq := (hp.map (fun r => (r.interaction_weight : ℚ))).sum_eq
    constructor
    · simp only [itemAgg]
      exact hlen
    · simp only [itemAgg]
      rw [hsumq, hlen]
  · intro k
    rw [affinityScore, affinityScore]
    exact ((h.filter _).map _).sum_eq

/-- Witness for C2 at a concrete two-row table and its transposition. -/
theorem c2_aggregation_order_independent_witness :
    [goldRowA, goldRowB].Perm [goldRowB, goldRowA]
    ∧ userAgg [goldRowA, goldRowB] "U1" = userAgg [goldRowB, goldRowA] "U1"
    ∧ affinityScore [goldRowA, goldRowB] ("U1", "P1")
        = affinityScore [goldRowB, goldRowA] ("U1", "P1") :=
  ⟨List.Perm.swap goldRowB goldRowA [],
    (c2_aggregation_order_independent _ _ (List.Perm.swap goldRowB goldRowA [])).1 "U1",
    (c2_aggregation_order_independent _ _
      (List.Perm.swap goldRowB goldRowA [])).2.2 ("U1", "P1")⟩

/-- C6: the `interaction_weight` derivation is a total, pure function of
`event_type` alone: the four known event types map to 1, 2, 5 and 10,
every other event type maps to the default 1, and the engineered weight
column is exactly the pointwise image of `eventWeight` over the input. -/
theorem c6_event_weight_total_pure :
    eventWeight "view" = 1 ∧ eventWeight "click" = 2 ∧ eventWeight "add_to_cart" = 5
    ∧ eventWeight "purchase" = 10
    ∧ (∀ e : String, e ≠ "view" → e ≠ "click" → e ≠ "add_to_cart" → e ≠ "purchase" →
        eventWeight e = 1)
    ∧ (∀ l : List RawInteraction,
        (engineerInteractionFeatures l).map (fun r => r.interaction_weight)
          = l.map (fun r => eventWeight r.event_type)) := by
  refine ⟨by decide, by decide, by decide, by decide, ?_, ?_⟩
  · intro e h1 h2 h3 h4
    rw [eventWeight, if_neg h1, if_neg h2, if_neg h3, if_neg h4]
  · intro l
    rw [engineerInteractionFeatures, List.map_map]
    rfl

/-- Witness for C6 at the unknown event type "swipe". -/
theorem c6_event_weight_total_pure_witness :
    ("swipe" ≠ "view" ∧ "swipe" ≠ "click" ∧ "swipe" ≠ "add_to_cart"
      ∧ "swipe" ≠ "purchase")
    ∧ eventWeight "swipe" = 1 :=
  ⟨by decide, c6_event_weight_total_pure.2.2.2.2.1 "swipe" (by decide) (by decide)
    (by decide) (by decide)⟩

/-- C7: min-max normalization of price and parsed rating never faults:
every normalized value of the engineered product table lies in [0, 1], and
on a degenerate column (min equals max) the normalized value is 0 for
every row instead of a division-by-zero fault. -/
theorem c7_minmax_normalization :
    ∀ (ps : List RawProduct) (q : Product), q ∈ engineerProductFeatures ps →
      ((0 ≤ q.norm_price ∧ q.norm_price ≤ 1)
          ∧ (0 ≤ q.norm_rating ∧ q.norm_rating ≤ 1))
      ∧ ((listMin (ps.map (fun p => p.price)) = listMax (ps.map (fun p => p.price)) →
            q.norm_price = 0)
        ∧ (listMin (ps.map (fun p => parseRate p.rating))
              = listMax (ps.map (fun p => parseRate p.rating)) → q.norm_rating = 0)) := by
  intro ps q hq
  simp only [engineerProductFeatures, List.mem_map] at hq
  obtain ⟨p, hp, rfl⟩ := hq
  have hprice := minMaxValue_bounds (List.mem_map_of_mem (fun p => p.price) hp)
  have hrate := minMaxValue_bounds (List.mem_map_of_mem (fun p => parseRate p.rating) hp)
  exact ⟨⟨hprice.1, hrate.1⟩, ⟨hprice.2, hrate.2⟩⟩

/-- Witness for C7 at the two-product scenario catalog. -/
theorem c7_minmax_normalization_witness :
    featP1 ∈ engineerProductFeatures scenarioRawProducts
    ∧ ((0 ≤ featP1.norm_price ∧ featP1.norm_price ≤ 1)
        ∧ (0 ≤ featP1.norm_rating ∧ featP1.norm_rating ≤ 1)) :=
  ⟨List.mem_cons_self featP1 _,
    (c7_minmax_normalization scenarioRawProducts featP1
      (List.mem_cons_self featP1 _)).1⟩

/-- C3 (failing-input evaluation): on a catalog of two items that share
the category "electronics", querying the second item returns the queried
item itself.  Both items have cosine similarity 1.0 to the query, the
stable descending sort keeps the tied entries in index order `[P1, P2]`,
and the slice `[1:top_n+1]` drops `P1` — not the queried `P2` — so the
"skip the first, which is itself" step of `get_recommendations` skips the
wrong row. -/
theorem c3_self_recommendation_bug :
    getRecommendations itemsTwoSame simTwoSame "P2" 5
      = Except.ok [{ product_id := "P2", category := "electronics", norm_rating := 1 }] := by
  rfl

/-- C4: querying a product_id absent from the item set raises the typed
not-found condition (the `IndexError` of `tolist()[0]` on the empty match
list, the condition the spec names `NotFoundError`) instead of returning
an empty or partial list. -/
theorem c4_unknown_product_raises :
    ∀ (items : List ItemRow) (sim : Nat → Nat → ℚ) (pid : String) (topN : Nat),
      (∀ it ∈ items, it.product_id ≠ pid) →
      getRecommendations items sim pid topN = Except.error PyError.indexError := by
  intro items sim pid topN h
  have hnone : lookupIdx items pid = none := by
    rw [lookupIdx, List.findIdx?_eq_none_iff]
    intro it hit
    exact decide_eq_false (h it hit)
  simp only [getRecommendations, hnone]

/-- Witness for C4 at a product absent from the two-item catalog. -/
theorem c4_unknown_product_raises_witness :
    getRecommendations itemsTwoSame simTwoSame "P9" 5
      = Except.error PyError.indexError :=
  c4_unknown_product_raises itemsTwoSame simTwoSame "P9" 5 (by decide)

/-- C5: for a product present in the catalog, the sorted similarity list —
and so the returned slice — is ordered by non-increasing similarity with
ties kept in original item order (stable sort), the call returns exactly
the rows of that slice, and repeated calls with the same inputs give
identical output. -/
theorem c5_recommendations_sorted_stable :
    ∀ (items : List ItemRow) (sim : Nat → Nat → ℚ) (pid : String) (topN idx : Nat),
      lookupIdx items pid = some idx →
      (sortedSimScores items sim idx).Pairwise ScoreDescStable
      ∧ (((sortedSimScores items sim idx).drop 1).take topN).Pairwise ScoreDescStable
      ∧ getRecommendations items sim pid topN
          = Except.ok ((((sortedSimScores items sim idx).drop 1).take topN).filterMap
              (fun e => items[e.1]?))
      ∧ getRecommendations items sim pid topN = getRecommendations items sim pid topN := by
  intro items sim pid topN idx h
  have hsorted : (sortedSimScores items sim idx).Pairwise ScoreDescStable :=
    stable_sortScoresDesc (simScores items.length sim idx)
      (simScores_indices items.length sim idx)
  refine ⟨hsorted, ?_, ?_, rfl⟩
  · exact List.Pairwise.sublist
      ((List.take_sublist _ _).trans (List.drop_sublist _ _)) hsorted
  · simp only [getRecommendations, h]

/-- Witness for C5 at the two-item catalog, querying its first item. -/
theorem c5_recommendations_sorted_stable_witness :
    lookupIdx itemsTwoSame "P1" = some 0
    ∧ (sortedSimScores itemsTwoSame simTwoSame 0).Pairwise ScoreDescStable :=
  ⟨rfl, (c5_recommendations_sorted_stable itemsTwoSame simTwoSame "P1" 2 0 rfl).1⟩

/-- C8 (counterexample to the surfacing half): no reading of the metrics
`run_data_preparation` surfaces (user count, item count, sparsity — all
computed from the interaction table before the merge) recovers the number
of unmatched interactions: the same interaction table against the scenario
catalog and against an empty catalog yields identical surfaced metrics but
unmatched counts 0 and 1. -/
theorem c8_count_not_surfaced :
    ¬ ∃ g : SparsityMetrics → Nat,
        ∀ (ps : List Product) (rows : List WInteraction),
          g (calculateGlobalSparsity rows) = unmatchedCount ps rows := by
  rintro ⟨g, hg⟩
  have h0 := hg scenarioProducts [wRowU1P1]
  have h1 := hg [] [wRowU1P1]
  have e0 : unmatchedCount scenarioProducts [wRowU1P1] = 0 := by decide
  have e1 : unmatchedCount [] [wRowU1P1] = 1 := by decide
  rw [e0] at h0
  rw [e1] at h1
  exact absurd (h0.symm.trans h1) (by decide)

/-- C8 (amended): an interaction whose product_id is absent from the
product table resolves to a single gold row whose item-side fields are all
missing, and the batch is not aborted — with unique product ids, the merge
emits exactly one gold row per interaction. -/
theorem c8_referential_gap_recovery :
    ∀ (ps : List Product) (rows : List WInteraction),
      ((ps.map (fun p => p.id)).Nodup → (goldMerge ps rows).length = rows.length)
      ∧ (∀ r ∈ rows, matchingProducts ps r.product_id = [] →
          unmatchedGoldRow r ∈ goldMerge ps rows
          ∧ (unmatchedGoldRow r).category = none
          ∧ (unmatchedGoldRow r).norm_price = none
          ∧ (unmatchedGoldRow r).norm_rating = none) := by
  intro ps rows
  refine ⟨fun hnd => goldMerge_length hnd rows, ?_⟩
  intro r hr hm
  exact ⟨unmatched_mem_goldMerge hr hm, rfl, rfl, rfl⟩

/-- Witness for C8 at a two-row batch with one unmatched interaction. -/
theorem c8_referential_gap_recovery_witness :
    (scenarioProducts.map (fun p => p.id)).Nodup
    ∧ (goldMerge scenarioProducts [wRowU1P1, wRowU1P9]).length = 2
    ∧ matchingProducts scenarioProducts wRowU1P9.product_id = []
    ∧ unmatchedGoldRow wRowU1P9 ∈ goldMerge scenarioProducts [wRowU1P1, wRowU1P9] := by
  refine ⟨by decide, ?_, by decide, ?_⟩
  · exact (c8_referential_gap_recovery scenarioProducts [wRowU1P1, wRowU1P9]).1 (by decide)
  · exact ((c8_referential_gap_recovery scenarioProducts [wRowU1P1, wRowU1P9]).2
      wRowU1P9 (by decide) (by decide)).1

/-- C9 (counterexample): registering a view whose source artifact does not
exist does not fail — the call prints the file-not-found message and
returns normally (`Except.ok`, not `Except.error`), with the state
unchanged; no `SourceNotFoundError`, nor any other exception, is raised. -/
theorem c9_missing_source_returns_normally :
    registerFeatureView stEmpty "t0" "user_signals" "user_feature_store.csv" "user_id"
        ["user_activity_count"] "v1.1"
      = Except.ok (stEmpty, RegisterMsg.fileNotFound) := by
  rfl

/-- C9 (amended): `register_feature_view` checks the source artifact; when
it is missing the call reports the error message and returns with nothing
registered and nothing raised, and when it exists the call registers —
the metadata of the named view is persisted (overwriting any previous binding)
in the returned registry, `last_updated` is stamped, and the registry JSON
is rewritten with the new contents. -/
theorem c9_register_source_check :
    ∀ (st : FSState) (now name src ek : String) (fs : List String) (v : String),
      (fullSourcePath src ∉ st.files →
        registerFeatureView st now name src ek fs v
          = Except.ok (st, RegisterMsg.fileNotFound))
      ∧ (fullSourcePath src ∈ st.files →
          ∀ st2 msg, registerFeatureView st now name src ek fs v = Except.ok (st2, msg) →
            msg = RegisterMsg.registered
            ∧ lookupView st2.registry.feature_views name
                = some { source := fullSourcePath src, entity_key := ek,
                         feature_list := fs, version := v, created_at := now }
            ∧ st2.registry.last_updated = now
            ∧ st2.disk = some st2.registry
            ∧ st2.files = st.files) := by
  intro st now name src ek fs v
  constructor
  · intro hnot
    simp only [registerFeatureView]
    rw [if_neg hnot]
  · intro hmem st2 msg heq
    simp only [registerFeatureView] at heq
    rw [if_pos hmem] at heq
    injection heq with h
    injection h with hst hmsg
    subst hmsg
    subst hst
    exact ⟨rfl, lookupView_setView_self _ _ _, rfl, rfl, rfl⟩

/-- Witness for C9: registering `user_signals` in a state where the user
feature table exists. -/
theorem c9_register_source_check_witness :
    fullSourcePath "user_feature_store.csv" ∈ stWithFile.files
    ∧ lookupView stAfterRegister.registry.feature_views "user_signals"
        = some viewUserSignals :=
  ⟨by decide,
    ((c9_register_source_check stWithFile "t1" "user_signals" "user_feature_store.csv"
        "user_id" ["user_activity_count"] "v1.1").2 (by decide)
      stAfterRegister RegisterMsg.registered rfl).2.1⟩

/-- C10: a registration attempt against a missing source artifact leaves
all registry state unchanged — the returned state is the input state, so
both the in-memory dictionary and the on-disk JSON are untouched and every
previously registered view is still retrievable exactly as before. -/
theorem c10_failed_register_preserves_state :
    ∀ (st : FSState) (now name src ek : String) (fs : List String) (v : String),
      fullSourcePath src ∉ st.files →
      ∀ st2 msg, registerFeatureView st now name src ek fs v = Except.ok (st2, msg) →
        st2 = st ∧ st2.registry = st.registry ∧ st2.disk = st.disk
        ∧ ∀ n, lookupView st2.registry.feature_views n
            = lookupView st.registry.feature_views n := by
  intro st now name src ek fs v hnot st2 msg heq
  simp only [registerFeatureView] at heq
  rw [if_neg hnot] at heq
  injection heq with h
  have hst : st = st2 := congrArg Prod.fst h
  subst hst
  exact ⟨rfl, rfl, rfl, fun n => rfl⟩

/-- Witness for C10: a failed registration against a state holding one
registered view keeps that view retrievable. -/
theorem c10_failed_register_preserves_state_witness :
    fullSourcePath "missing.csv" ∉ stPre.files
    ∧ lookupView stPre.registry.feature_views "item_signals"
        = lookupView stPre.registry.feature_views "item_signals"
    ∧ lookupView stPre.registry.feature_views "item_signals" = some viewItemSignals :=
  ⟨by decide,
    (c10_failed_register_preserves_state stPre "t0" "user_signals" "missing.csv"
        "user_id" [] "v1.0" (by decide) stPre RegisterMsg.fileNotFound rfl).2.2.2
      "item_signals",
    by decide⟩

end Recomart
